import Mathlib

/-!
Shallow embedding of `create-state-machine` (src/index.js).

The library tracks a single mutable reference `currentState` (a JavaScript
value: `null` before construction, thereafter whatever the reducers return)
and performs identity-guarded transitions:

```
function handle (reducer) {
  var nextState = reducer(currentState)
  if (nextState !== currentState) {
    if (currentState && currentState.exit) { currentState.exit() }
    currentState = nextState
    if (currentState && currentState.entry) { currentState.entry() }
  }
}
```

`createStateMachine(initialState)` starts `currentState` at `null` and calls
`handle(function () { return initialState })` once; `invoke(eventName, ...)`
calls `handle` with the reducer
`state => state[eventName] ? state[eventName].apply(state, args) : state`.

The embedding models JavaScript values as `JSVal` (`null`, `undefined`, or an
object identified by a numeric identity; `===`/`!==` is decidable equality on
`JSVal`).  Object behaviour (its `exit`/`entry` hooks and its event-handler
methods) lives in an environment `Env : Nat → ObjSpec`.  Hooks and methods may
throw (`HookBehavior.throws` / an `Except` result); the machine itself can
throw a `TypeError` when `invoke` performs member access on `null`/`undefined`.
Observable behaviour is recorded in a trace of events: method calls made by
the `invoke` reducer, `exit` hook calls, reassignments of `currentState`, and
`entry` hook calls, in the order the source performs them.
-/

/-- A JavaScript value as far as this library can distinguish them:
`null`, `undefined`, or an object with an identity.  Equality of `JSVal`
models the `===` identity comparison. -/
inductive JSVal where
  | null
  | undefined
  | obj (id : Nat)
deriving DecidableEq

/-- JavaScript truthiness of a `JSVal`: objects are truthy, `null` and
`undefined` are falsy (models the `currentState && ...` guards). -/
def truthy : JSVal → Bool
  | JSVal.null => false
  | JSVal.undefined => false
  | JSVal.obj _ => true

/-- Behaviour of a lifecycle hook (`exit` / `entry`): it either returns
normally or throws a user error identified by a code. -/
inductive HookBehavior where
  | ok
  | throws (e : Nat)
deriving DecidableEq

/-- Errors that can escape `handle` / `invoke`: a user error thrown by a
reducer, hook or event-handler method, or the `TypeError` raised by member
access on `null`/`undefined` inside `invoke`'s reducer. -/
inductive Err where
  | typeError
  | userError (e : Nat)
deriving DecidableEq

/-- A record of one event-handler method call: which object's method, the
method name, the `this` receiver it was applied with, and the arguments. -/
structure MethodCall where
  objId : Nat
  name : String
  receiver : JSVal
  args : List JSVal
deriving DecidableEq

/-- One observable event of a machine run. -/
inductive Event where
  /-- an event-handler method was called (by `invoke`'s reducer) -/
  | called (c : MethodCall)
  /-- the outgoing state's `exit` hook was called -/
  | exitCalled (id : Nat)
  /-- `currentState` was reassigned to this value -/
  | assigned (v : JSVal)
  /-- the incoming state's `entry` hook was called -/
  | entryCalled (id : Nat)
deriving DecidableEq

/-- What an object exposes: an optional (truthy, callable) `exit` hook, an
optional `entry` hook, and named event-handler methods.  A method takes the
forwarded arguments and returns the next state or throws a user error. -/
structure ObjSpec where
  exit : Option HookBehavior
  entry : Option HookBehavior
  methods : String → Option (List JSVal → Except Nat JSVal)

/-- The object environment: behaviour of every object identity. -/
def Env : Type := Nat → ObjSpec

/-- The result of running a reducer on the current state: the method calls it
made (observable) and its returned next state or thrown error. -/
structure RedResult where
  calls : List MethodCall
  result : Except Err JSVal

/-- A reducer: arbitrary user code from the current state to a next state,
possibly throwing, possibly making observable method calls. -/
def Reducer : Type := JSVal → RedResult

/-- The machine's state: the `currentState` reference plus the trace of
observable events so far. -/
structure Machine where
  currentState : JSVal
  trace : List Event
deriving DecidableEq

/-- `if (currentState && currentState.exit) { currentState.exit() }`:
the events this guarded call appends and the error it throws, if any. -/
def runExitHook (env : Env) (s : JSVal) : List Event × Option Err :=
  match s with
  | JSVal.obj id =>
    match (env id).exit with
    | some HookBehavior.ok => ([Event.exitCalled id], none)
    | some (HookBehavior.throws e) => ([Event.exitCalled id], some (Err.userError e))
    | none => ([], none)
  | _ => ([], none)

/-- `if (currentState && currentState.entry) { currentState.entry() }`:
the events this guarded call appends and the error it throws, if any. -/
def runEntryHook (env : Env) (s : JSVal) : List Event × Option Err :=
  match s with
  | JSVal.obj id =>
    match (env id).entry with
    | some HookBehavior.ok => ([Event.entryCalled id], none)
    | some (HookBehavior.throws e) => ([Event.entryCalled id], some (Err.userError e))
    | none => ([], none)
  | _ => ([], none)

/-- `handle(reducer)` (src/index.js lines 6-18): run the reducer on
`currentState`; if the result is identical (`!==` fails) do nothing, else run
the old state's `exit` hook, reassign `currentState`, run the new state's
`entry` hook.  Thrown errors propagate (second component); the machine state
at the moment of the throw is the first component. -/
def handle (env : Env) (reducer : Reducer) (m : Machine) : Machine × Option Err :=
  let rr := reducer m.currentState
  let m0 : Machine := { m with trace := m.trace ++ rr.calls.map Event.called }
  match rr.result with
  | Except.error e => (m0, some e)
  | Except.ok nextState =>
    if nextState = m.currentState then (m0, none)
    else
      match runExitHook env m.currentState with
      | (exitEvs, some e) => ({ m0 with trace := m0.trace ++ exitEvs }, some e)
      | (exitEvs, none) =>
        match runEntryHook env nextState with
        | (entryEvs, err) =>
          ({ currentState := nextState,
             trace := m0.trace ++ exitEvs ++ [Event.assigned nextState] ++ entryEvs }, err)

/-- The constant reducer `function () { return initialState }`. -/
def constRed (v : JSVal) : Reducer :=
  fun _ => { calls := [], result := Except.ok v }

/-- `createStateMachine(initialState)` (src/index.js lines 2-25):
`currentState` starts at `null`, then `handle` is called once with a reducer
returning `initialState`. -/
def createStateMachine (env : Env) (initialState : JSVal) : Machine × Option Err :=
  handle env (constRed initialState) { currentState := JSVal.null, trace := [] }

/-- Lift a method's thrown error code into the machine's error type. -/
def liftErr : Except Nat JSVal → Except Err JSVal
  | Except.ok v => Except.ok v
  | Except.error e => Except.error (Err.userError e)

/-- The reducer `invoke` builds (src/index.js line 31):
`state => state[eventName] ? state[eventName].apply(state, args) : state`.
Member access on `null`/`undefined` throws a `TypeError`; a missing member is
`undefined`, hence falsy, hence the state is returned unchanged; a present
method is applied with the state as receiver. -/
def invokeReducer (env : Env) (eventName : String) (args : List JSVal) : Reducer :=
  fun state =>
    match state with
    | JSVal.obj id =>
      match (env id).methods eventName with
      | some f =>
        { calls := [⟨id, eventName, JSVal.obj id, args⟩], result := liftErr (f args) }
      | none => { calls := [], result := Except.ok (JSVal.obj id) }
    | _ => { calls := [], result := Except.error Err.typeError }

/-- `invoke(eventName, ...args)` (src/index.js lines 28-33). -/
def invoke (env : Env) (eventName : String) (args : List JSVal) (m : Machine) :
    Machine × Option Err :=
  handle env (invokeReducer env eventName args) m

/-- Replay a trace from a starting value: the observable `currentState` after
those events (only `assigned` events change it). -/
def replay (s : JSVal) : List Event → JSVal
  | [] => s
  | Event.assigned v :: rest => replay v rest
  | Event.called _ :: rest => replay s rest
  | Event.exitCalled _ :: rest => replay s rest
  | Event.entryCalled _ :: rest => replay s rest

/-- Is this event a method call? -/
def isCall : Event → Bool
  | Event.called _ => true
  | _ => false

/-- Is this event an `exit` hook call? -/
def isExitEv : Event → Bool
  | Event.exitCalled _ => true
  | _ => false

/-- Is this event an `entry` hook call? -/
def isEntryEv : Event → Bool
  | Event.entryCalled _ => true
  | _ => false

/-- Machines reachable from construction by `handle` calls (every `invoke`
is a `handle` call with `invokeReducer`). -/
inductive Reachable (env : Env) (init : JSVal) : Machine → Prop where
  | start : Reachable env init (createStateMachine env init).fst
  | step (r : Reducer) (m : Machine) :
      Reachable env init m → Reachable env init (handle env r m).fst

/-! ### Concrete environments and machines used by the witnesses -/

/-- An environment where no object has hooks or methods. -/
def envEmpty : Env := fun _ =>
  { exit := none, entry := none, methods := fun _ => none }

/-- An environment where every object has non-throwing `exit` and `entry`
hooks and no methods. -/
def envHooks : Env := fun _ =>
  { exit := some HookBehavior.ok, entry := some HookBehavior.ok,
    methods := fun _ => none }

/-- An environment where every object's `exit` hook throws error 7 and its
`entry` hook succeeds. -/
def envExitThrows : Env := fun _ =>
  { exit := some (HookBehavior.throws 7), entry := some HookBehavior.ok,
    methods := fun _ => none }

/-- An environment where every object's `exit` hook succeeds and its `entry`
hook throws error 8. -/
def envEntryThrows : Env := fun _ =>
  { exit := some HookBehavior.ok, entry := some (HookBehavior.throws 8),
    methods := fun _ => none }

/-- A method returning the state `obj 1`. -/
def goFn : List JSVal → Except Nat JSVal := fun _ => Except.ok (JSVal.obj 1)

/-- An environment where every object exposes `goFn` under every method name
and has no hooks. -/
def envMethod : Env := fun _ =>
  { exit := none, entry := none, methods := fun _ => some goFn }

/-- A reducer that throws user error `e`. -/
def throwRed (e : Nat) : Reducer :=
  fun _ => { calls := [], result := Except.error (Err.userError e) }

/-- A machine currently in state `obj 0` with an empty trace. -/
def mObj0 : Machine := { currentState := JSVal.obj 0, trace := [] }

/-! ### Helper lemmas -/

/-- `handle` only looks at the reducer's value on the current state. -/
lemma handle_congr (env : Env) (r1 r2 : Reducer) (m : Machine)
    (h : r1 m.currentState = r2 m.currentState) :
    handle env r1 m = handle env r2 m := by
  unfold handle
  rw [h]

/-- The guarded `exit` call appends no method-call events. -/
lemma runExitHook_fst_noCall (env : Env) (s : JSVal) :
    ((runExitHook env s).fst).filter isCall = [] := by
  unfold runExitHook
  cases s with
  | null => rfl
  | undefined => rfl
  | obj id =>
    rcases h : (env id).exit with _ | hb
    · simp [h]
    · cases hb <;> simp [h, isCall]

/-- The guarded `entry` call appends no method-call events. -/
lemma runEntryHook_fst_noCall (env : Env) (s : JSVal) :
    ((runEntryHook env s).fst).filter isCall = [] := by
  unfold runEntryHook
  cases s with
  | null => rfl
  | undefined => rfl
  | obj id =>
    rcases h : (env id).entry with _ | hb
    · simp [h]
    · cases hb <;> simp [h, isCall]

/-- On a falsy value the `entry` guard short-circuits: no call, no error. -/
lemma runEntryHook_falsy (env : Env) (s : JSVal) (h : truthy s = false) :
    runEntryHook env s = ([], none) := by
  cases s with
  | null => rfl
  | undefined => rfl
  | obj id => simp [truthy] at h

/-- Replaying a concatenation replays the pieces in order. -/
lemma replay_append (s : JSVal) (t u : List Event) :
    replay s (t ++ u) = replay (replay s t) u := by
  induction t generalizing s with
  | nil => rfl
  | cons e rest ih => cases e <;> simp [replay, ih]

/-- Method-call events do not move the observable state. -/
lemma replay_map_called (s : JSVal) (l : List MethodCall) :
    replay s (l.map Event.called) = s := by
  induction l with
  | nil => rfl
  | cons c rest ih => simp [replay, ih]

/-- The events of the guarded `exit` call do not move the observable state. -/
lemma replay_exitHook_fst (env : Env) (v s : JSVal) :
    replay s (runExitHook env v).fst = s := by
  unfold runExitHook
  cases v with
  | null => rfl
  | undefined => rfl
  | obj id =>
    rcases h : (env id).exit with _ | hb
    · simp [h, replay]
    · cases hb <;> simp [h, replay]

/-- The events of the guarded `entry` call do not move the observable state. -/
lemma replay_entryHook_fst (env : Env) (v s : JSVal) :
    replay s (runEntryHook env v).fst = s := by
  unfold runEntryHook
  cases v with
  | null => rfl
  | undefined => rfl
  | obj id =>
    rcases h : (env id).entry with _ | hb
    · simp [h, replay]
    · cases hb <;> simp [h, replay]

/-- Method-call events of `handle`'s result trace are those of the input
trace followed by the reducer's own calls: hooks add no call events. -/
lemma handle_filter_isCall (env : Env) (r : Reducer) (m : Machine) :
    ((handle env r m).fst.trace).filter isCall
      = m.trace.filter isCall ++ (r m.currentState).calls.map Event.called := by
  have hmap : ∀ l : List MethodCall,
      (l.map Event.called).filter isCall = l.map Event.called := by
    intro l
    induction l with
    | nil => rfl
    | cons c rest ih => simp [isCall, ih]
  rcases hr : r m.currentState with ⟨calls, res⟩
  unfold handle
  rw [hr]
  rcases res with e | next
  · simp [List.filter_append, hmap]
  · by_cases hnext : next = m.currentState
    · simp [hnext, List.filter_append, hmap]
    · have hex := runExitHook_fst_noCall env m.currentState
      rcases hEx : runExitHook env m.currentState with ⟨evs, _ | e⟩ <;>
        rw [hEx] at hex <;> simp only at hex
      · have hen := runEntryHook_fst_noCall env next
        rcases hEn : runEntryHook env next with ⟨evs2, err2⟩
        rw [hEn] at hen
        simp only at hen
        simp [hnext, hEx, hEn, List.filter_append, hmap, hex, hen, isCall]
      · simp [hnext, hEx, List.filter_append, hmap, hex]

/-- After construction the machine holds `initialState`, whatever it is. -/
lemma createStateMachine_currentState (env : Env) (initialState : JSVal) :
    (createStateMachine env initialState).fst.currentState = initialState := by
  unfold createStateMachine handle constRed
  by_cases h0 : initialState = JSVal.null
  · simp [h0]
  · rcases hEn : runEntryHook env initialState with ⟨evs2, err2⟩
    simp [h0, runExitHook, hEn]

/-- One `handle` call either leaves the state and only extends the trace, or
records the reassignment of the new current state in the trace. -/
lemma handle_next (env : Env) (r : Reducer) (m : Machine) :
    ((handle env r m).fst.currentState = m.currentState
      ∧ ∃ t, (handle env r m).fst.trace = m.trace ++ t)
    ∨ Event.assigned ((handle env r m).fst.currentState)
        ∈ (handle env r m).fst.trace := by
  rcases hr : r m.currentState with ⟨calls, res⟩
  unfold handle
  rw [hr]
  rcases res with e | next
  · exact Or.inl ⟨rfl, _, rfl⟩
  · by_cases hnext : next = m.currentState
    · simp only [hnext, if_pos rfl]
      exact Or.inl ⟨rfl, _, rfl⟩
    · rcases hEx : runExitHook env m.currentState with ⟨evs, _ | e⟩
      · rcases hEn : runEntryHook env next with ⟨evs2, err2⟩
        simp only [if_neg hnext, hEx, hEn]
        exact Or.inr (by simp)
      · simp only [if_neg hnext, hEx]
        exact Or.inl ⟨by trivial, calls.map Event.called ++ evs, by simp⟩

/-- `handle` preserves the fact that the current state is the replay of the
trace from the pre-construction `null`. -/
lemma handle_replay (env : Env) (r : Reducer) (m : Machine)
    (hm : m.currentState = replay JSVal.null m.trace) :
    (handle env r m).fst.currentState
      = replay JSVal.null ((handle env r m).fst.trace) := by
  rcases hr : r m.currentState with ⟨calls, res⟩
  unfold handle
  rw [hr]
  rcases res with e | next
  · simpa [replay_append, replay_map_called] using hm
  · by_cases hnext : next = m.currentState
    · simp only [hnext, if_pos rfl]
      simpa [replay_append, replay_map_called] using hm
    · rcases hEx : runExitHook env m.currentState with ⟨evs, _ | e⟩
      · rcases hEn : runEntryHook env next with ⟨evs2, err2⟩
        have h2 : replay next evs2 = next := by
          have := replay_entryHook_fst env next next
          rw [hEn] at this
          exact this
        simp only [hnext, if_neg hnext, hEx, hEn]
        simp [replay_append, replay_map_called, replay, h2]
      · have h1 : replay m.currentState evs = m.currentState := by
          have := replay_exitHook_fst env m.currentState m.currentState
          rw [hEx] at this
          exact this
        simp only [hnext, if_neg hnext, hEx]
        simp [replay_append, replay_map_called, h1, ← hm]

/-! ### Theorems for the claims -/

/-- C3: if the reducer returns the exact same reference as the current state
(identity comparison), neither `exit` nor `entry` is invoked (the trace grows
only by the reducer's own method calls), no error escapes, and `currentState`
is unchanged. -/
theorem C3_identity_noop (env : Env) (r : Reducer) (m : Machine)
    (hres : (r m.currentState).result = Except.ok m.currentState) :
    (handle env r m).fst.currentState = m.currentState
    ∧ (handle env r m).fst.trace = m.trace ++ (r m.currentState).calls.map Event.called
    ∧ (handle env r m).snd = none := by
  rcases hr : r m.currentState with ⟨calls, res⟩
  rw [hr] at hres
  simp only at hres
  subst hres
  unfold handle
  rw [hr]
  simp

/-- C3 witness: a no-op transition at a concrete input. -/
theorem C3_identity_noop_witness :
    (handle envHooks (constRed (JSVal.obj 0)) mObj0).fst.currentState = JSVal.obj 0
    ∧ (handle envHooks (constRed (JSVal.obj 0)) mObj0).snd = none := by
  have h := C3_identity_noop envHooks (constRed (JSVal.obj 0)) mObj0 rfl
  exact ⟨h.1, h.2.2⟩

/-- C5: if the current state is an object lacking a member named `eventName`,
`invoke` is a no-op: no error, no state change, no events at all. -/
theorem C5_dispatch_miss (env : Env) (eventName : String) (args : List JSVal)
    (m : Machine) (id : Nat)
    (hcur : m.currentState = JSVal.obj id)
    (hm : (env id).methods eventName = none) :
    invoke env eventName args m = (m, none) := by
  obtain ⟨cs, tr⟩ := m
  simp only at hcur
  subst hcur
  unfold invoke handle invokeReducer
  simp [hm]

/-- C5 witness: dispatch miss at a concrete input. -/
theorem C5_dispatch_miss_witness :
    invoke envHooks "toggle" [] mObj0 = (mObj0, none) :=
  C5_dispatch_miss envHooks "toggle" [] mObj0 0 rfl rfl

/-- C9: if the current state is `null` or `undefined`, `invoke` throws a
`TypeError` (member access on the nullish state) rather than acting as a
no-op, and `currentState` (indeed the whole machine state) is unchanged. -/
theorem C9_invoke_on_null (env : Env) (eventName : String) (args : List JSVal)
    (m : Machine)
    (hcur : m.currentState = JSVal.null ∨ m.currentState = JSVal.undefined) :
    invoke env eventName args m = (m, some Err.typeError) := by
  obtain ⟨cs, tr⟩ := m
  simp only at hcur
  rcases hcur with h | h <;> subst h <;>
    unfold invoke handle invokeReducer <;> simp

/-- C9 witness: `invoke` on a machine holding `null` throws a `TypeError`. -/
theorem C9_invoke_on_null_witness :
    invoke envHooks "toggle" [] { currentState := JSVal.null, trace := [] }
      = ({ currentState := JSVal.null, trace := [] }, some Err.typeError) :=
  C9_invoke_on_null envHooks "toggle" [] _ (Or.inl rfl)

/-- C1: when the reducer returns a state with a different identity, the old
state's `exit` is called first, then `currentState` is reassigned, then the
new state's `entry` is called; the trace records exactly
exit-before-assign-before-entry with nothing interleaved, and replaying the
transition events shows the observable state is still the old one at the
`exit` call and already the new one at the `entry` call. -/
theorem C1_hook_order (env : Env) (m : Machine) (r : Reducer) (a b : Nat)
    (hcur : m.currentState = JSVal.obj a)
    (hab : b ≠ a)
    (hred : (r m.currentState).result = Except.ok (JSVal.obj b))
    (hex : (env a).exit = some HookBehavior.ok)
    (hb' : HookBehavior)
    (hen : (env b).entry = some hb') :
    (handle env r m).fst.trace
      = m.trace ++ (r m.currentState).calls.map Event.called
          ++ [Event.exitCalled a, Event.assigned (JSVal.obj b), Event.entryCalled b]
    ∧ (handle env r m).fst.currentState = JSVal.obj b
    ∧ replay (JSVal.obj a) [Event.exitCalled a] = JSVal.obj a
    ∧ replay (JSVal.obj a) [Event.exitCalled a, Event.assigned (JSVal.obj b)]
        = JSVal.obj b := by
  obtain ⟨cs, tr⟩ := m
  simp only at hcur
  subst hcur
  rcases hr : r (JSVal.obj a) with ⟨calls, res⟩
  simp only at hred hex hen
  rw [hr] at hred
  simp only at hred
  subst hred
  unfold handle
  simp only
  rw [hr]
  unfold runExitHook runEntryHook
  cases hb' <;> simp [hex, hen, hab, replay]

/-- C1 witness: a concrete transition from `obj 0` to `obj 1` with both
hooks present produces exactly the exit, assign, entry events in order. -/
theorem C1_hook_order_witness :
    (handle envHooks (constRed (JSVal.obj 1)) mObj0).fst.trace
      = [Event.exitCalled 0, Event.assigned (JSVal.obj 1), Event.entryCalled 1]
    ∧ (handle envHooks (constRed (JSVal.obj 1)) mObj0).fst.currentState
        = JSVal.obj 1 := by
  have h := C1_hook_order envHooks mObj0 (constRed (JSVal.obj 1)) 0 1 rfl
    (by decide) rfl rfl HookBehavior.ok rfl
  exact ⟨by simpa using h.1, h.2.1⟩

/-- C2: exceptions propagate without being caught and without rollback: a
throwing reducer leaves `currentState` unchanged; a throwing `exit` hook
leaves `currentState` at the old state; a throwing `entry` hook leaves
`currentState` already reassigned to the new state. -/
theorem C2_error_propagation (env : Env) (r : Reducer) (m : Machine) :
    (∀ e, (r m.currentState).result = Except.error e →
        (handle env r m).fst.currentState = m.currentState
          ∧ (handle env r m).snd = some e)
    ∧ (∀ a e next, m.currentState = JSVal.obj a →
        (env a).exit = some (HookBehavior.throws e) →
        (r m.currentState).result = Except.ok next → next ≠ m.currentState →
        (handle env r m).fst.currentState = m.currentState
          ∧ (handle env r m).snd = some (Err.userError e))
    ∧ (∀ b e next, (runExitHook env m.currentState).snd = none →
        (r m.currentState).result = Except.ok next → next ≠ m.currentState →
        next = JSVal.obj b → (env b).entry = some (HookBehavior.throws e) →
        (handle env r m).fst.currentState = next
          ∧ (handle env r m).snd = some (Err.userError e)) := by
  refine ⟨?_, ?_, ?_⟩
  · intro e he
    rcases hr : r m.currentState with ⟨calls, res⟩
    rw [hr] at he
    simp only at he
    subst he
    unfold handle
    rw [hr]
    simp
  · intro a e next hcur hex hres hne
    rcases hr : r m.currentState with ⟨calls, res⟩
    rw [hr] at hres
    simp only at hres
    subst hres
    unfold handle
    rw [hr]
    simp only [if_neg hne]
    have hx : runExitHook env m.currentState
        = ([Event.exitCalled a], some (Err.userError e)) := by
      rw [hcur]
      unfold runExitHook
      simp [hex]
    rw [hx]
    simp
  · intro b e next hexok hres hne hnb hen
    subst hnb
    rcases hr : r m.currentState with ⟨calls, res⟩
    rw [hr] at hres
    simp only at hres
    subst hres
    unfold handle
    rw [hr]
    simp only [if_neg hne]
    rcases hEx : runExitHook env m.currentState with ⟨evs, err⟩
    rw [hEx] at hexok
    simp only at hexok
    subst hexok
    have hy : runEntryHook env (JSVal.obj b)
        = ([Event.entryCalled b], some (Err.userError e)) := by
      unfold runEntryHook
      simp [hen]
    rw [hy]
    simp

/-- C2 witness: the three propagation behaviours at concrete inputs: a
reducer throwing error 5, an `exit` hook throwing error 7, and an `entry`
hook throwing error 8. -/
theorem C2_error_propagation_witness :
    ((handle envHooks (throwRed 5) mObj0).fst.currentState = JSVal.obj 0
      ∧ (handle envHooks (throwRed 5) mObj0).snd = some (Err.userError 5))
    ∧ ((handle envExitThrows (constRed (JSVal.obj 1)) mObj0).fst.currentState
          = JSVal.obj 0
      ∧ (handle envExitThrows (constRed (JSVal.obj 1)) mObj0).snd
          = some (Err.userError 7))
    ∧ ((handle envEntryThrows (constRed (JSVal.obj 1)) mObj0).fst.currentState
          = JSVal.obj 1
      ∧ (handle envEntryThrows (constRed (JSVal.obj 1)) mObj0).snd
          = some (Err.userError 8)) := by
  refine ⟨?_, ?_, ?_⟩
  · exact (C2_error_propagation envHooks (throwRed 5) mObj0).1
      (Err.userError 5) rfl
  · exact (C2_error_propagation envExitThrows (constRed (JSVal.obj 1)) mObj0).2.1
      0 7 (JSVal.obj 1) rfl rfl rfl (by decide)
  · exact (C2_error_propagation envEntryThrows (constRed (JSVal.obj 1)) mObj0).2.2
      1 8 (JSVal.obj 1) rfl rfl (by decide) rfl rfl

/-- C4: when the current state exposes a callable method named `eventName`,
`invoke` calls it exactly once with the current state as receiver and the
forwarded arguments (the result trace gains exactly that one method-call
event), and transitions via `handle`'s identity-guarded rules to the method's
return value (`invoke` equals `handle` of a reducer returning it). -/
theorem C4_dispatch_hit (env : Env) (eventName : String) (args : List JSVal)
    (m : Machine) (id : Nat) (f : List JSVal → Except Nat JSVal)
    (hcur : m.currentState = JSVal.obj id)
    (hf : (env id).methods eventName = some f) :
    invoke env eventName args m
      = handle env
          (fun _ => { calls := [⟨id, eventName, JSVal.obj id, args⟩],
                      result := liftErr (f args) }) m
    ∧ ((invoke env eventName args m).fst.trace).filter isCall
        = m.trace.filter isCall
            ++ [Event.called ⟨id, eventName, JSVal.obj id, args⟩] := by
  constructor
  · unfold invoke
    apply handle_congr
    rw [hcur]
    unfold invokeReducer
    simp [hf]
  · have h := handle_filter_isCall env (invokeReducer env eventName args) m
    unfold invoke
    rw [h, hcur]
    unfold invokeReducer
    simp [hf]

/-- C4 witness: dispatching `go` on `obj 0`, whose method returns `obj 1`,
records the single method call with receiver `obj 0` and empty argument
list, and equals the corresponding `handle` transition. -/
theorem C4_dispatch_hit_witness :
    invoke envMethod "go" [] mObj0
      = handle envMethod
          (fun _ => { calls := [⟨0, "go", JSVal.obj 0, []⟩],
                      result := liftErr (goFn []) }) mObj0
    ∧ ((invoke envMethod "go" [] mObj0).fst.trace).filter isCall
        = [Event.called ⟨0, "go", JSVal.obj 0, []⟩] := by
  have h := C4_dispatch_hit envMethod "go" [] mObj0 0 goFn rfl rfl
  exact ⟨h.1, by simpa using h.2⟩

/-- C6: constructing a machine with a non-null initial state exposing an
`entry` hook calls that hook exactly once (it is the only entry event in the
construction trace) and calls no exit hook during construction. -/
theorem C6_initial_entry (env : Env) (b : Nat) (hb' : HookBehavior)
    (hen : (env b).entry = some hb') :
    (createStateMachine env (JSVal.obj b)).fst.trace
      = [Event.assigned (JSVal.obj b), Event.entryCalled b]
    ∧ (createStateMachine env (JSVal.obj b)).fst.currentState = JSVal.obj b
    ∧ ((createStateMachine env (JSVal.obj b)).fst.trace).filter isEntryEv
        = [Event.entryCalled b]
    ∧ ((createStateMachine env (JSVal.obj b)).fst.trace).filter isExitEv
        = [] := by
  unfold createStateMachine handle constRed runExitHook runEntryHook
  cases hb' <;> simp [hen, isEntryEv, isExitEv]

/-- C6 witness: constructing with `obj 3` under an environment where every
object has hooks fires exactly one entry event and no exit event. -/
theorem C6_initial_entry_witness :
    (createStateMachine envHooks (JSVal.obj 3)).fst.trace
      = [Event.assigned (JSVal.obj 3), Event.entryCalled 3]
    ∧ (createStateMachine envHooks (JSVal.obj 3)).fst.currentState = JSVal.obj 3
    ∧ ((createStateMachine envHooks (JSVal.obj 3)).fst.trace).filter isEntryEv
        = [Event.entryCalled 3]
    ∧ ((createStateMachine envHooks (JSVal.obj 3)).fst.trace).filter isExitEv
        = [] :=
  C6_initial_entry envHooks 3 HookBehavior.ok rfl

/-- C7 counterexample: constructing with `initialState = null` performs NO
transition at all: `null !== null` is false, so the identity-inequality
check does not fire, nothing is reassigned and the construction trace is
empty (the claim asserts one transition is performed for every value of
`initialState`, including `null`). -/
theorem C7_null_counterexample :
    (createStateMachine envEmpty JSVal.null).fst.trace = []
    ∧ Event.assigned JSVal.null ∉ (createStateMachine envEmpty JSVal.null).fst.trace
    ∧ (createStateMachine envEmpty JSVal.null).fst.currentState = JSVal.null := by
  refine ⟨rfl, ?_, rfl⟩
  intro h
  simp [createStateMachine, handle, constRed] at h

/-- C7 (amended): construction starts the internal state at `null` and
performs exactly one `handle` call with a reducer returning `initialState`,
following the same identity-comparison and hook-invocation rules as any
other call; afterwards `currentState = initialState` for every value of
`initialState`, and whenever `initialState` is not identical to `null`
(including `undefined`) that call is a real transition that reassigns
`currentState`. -/
theorem C7_initial_transition (env : Env) (initialState : JSVal) :
    createStateMachine env initialState
        = handle env (constRed initialState)
            { currentState := JSVal.null, trace := [] }
    ∧ (createStateMachine env initialState).fst.currentState = initialState
    ∧ (initialState ≠ JSVal.null →
        Event.assigned initialState
          ∈ (createStateMachine env initialState).fst.trace) := by
  refine ⟨rfl, createStateMachine_currentState env initialState, ?_⟩
  intro h0
  unfold createStateMachine handle constRed
  rcases hEn : runEntryHook env initialState with ⟨evs2, err2⟩
  simp [h0, runExitHook, hEn]

/-- C7 witness: constructing with `obj 2` ends at `obj 2` and records the
reassignment; constructing with `undefined` also ends at `undefined`. -/
theorem C7_initial_transition_witness :
    (createStateMachine envHooks (JSVal.obj 2)).fst.currentState = JSVal.obj 2
    ∧ Event.assigned (JSVal.obj 2)
        ∈ (createStateMachine envHooks (JSVal.obj 2)).fst.trace
    ∧ (createStateMachine envHooks JSVal.undefined).fst.currentState
        = JSVal.undefined := by
  have h2 := C7_initial_transition envHooks (JSVal.obj 2)
  have hu := C7_initial_transition envHooks JSVal.undefined
  exact ⟨h2.2.1, h2.2.2 (by decide), hu.2.1⟩

/-- C8: at every reachable point the current state is the replay of the
machine's observable trace from the pre-construction `null`, and is either
`null`, the `initialState` passed at construction, or a value whose
reassignment an earlier reducer produced (recorded in the trace);
`currentState` changes in a `handle` call only to the reducer's returned
value, and `invoke` mutates only through `handle`. -/
theorem C8_state_provenance :
    (∀ (env : Env) (init : JSVal) (m : Machine), Reachable env init m →
        m.currentState = replay JSVal.null m.trace
        ∧ (m.currentState = JSVal.null ∨ m.currentState = init
            ∨ Event.assigned m.currentState ∈ m.trace))
    ∧ (∀ (env : Env) (r : Reducer) (m : Machine),
        (handle env r m).fst.currentState = m.currentState
        ∨ (r m.currentState).result
            = Except.ok ((handle env r m).fst.currentState))
    ∧ (∀ (env : Env) (eventName : String) (args : List JSVal) (m : Machine),
        invoke env eventName args m
          = handle env (invokeReducer env eventName args) m) := by
  refine ⟨?_, ?_, ?_⟩
  · intro env init m h
    induction h with
    | start =>
      constructor
      · exact handle_replay env (constRed init) _ rfl
      · exact Or.inr (Or.inl (createStateMachine_currentState env init))
    | step r m' hm ih =>
      constructor
      · exact handle_replay env r m' ih.1
      · rcases handle_next env r m' with ⟨hsame, t, htr⟩ | hmem
        · rw [hsame, htr]
          rcases ih.2 with h | h | h
          · exact Or.inl h
          · exact Or.inr (Or.inl h)
          · exact Or.inr (Or.inr (List.mem_append_left t h))
        · exact Or.inr (Or.inr hmem)
  · intro env r m
    rcases hr : r m.currentState with ⟨calls, res⟩
    unfold handle
    rw [hr]
    rcases res with e | next
    · exact Or.inl rfl
    · by_cases hnext : next = m.currentState
      · simp only [if_pos hnext]
        exact Or.inl (by trivial)
      · rcases hEx : runExitHook env m.currentState with ⟨evs, _ | e⟩
        · rcases hEn : runEntryHook env next with ⟨evs2, err2⟩
          simp only [if_neg hnext, hEx, hEn]
          exact Or.inr (by trivial)
        · simp only [if_neg hnext, hEx]
          exact Or.inl (by trivial)
  · intro env eventName args m
    rfl

/-- C8 witness: the invariant at a concretely constructed machine, the
single-step alternative for a concrete `handle` call, and `invoke` as a
`handle` call at concrete arguments. -/
theorem C8_state_provenance_witness :
    ((createStateMachine envHooks (JSVal.obj 0)).fst.currentState
        = replay JSVal.null (createStateMachine envHooks (JSVal.obj 0)).fst.trace)
    ∧ ((handle envHooks (constRed (JSVal.obj 1)) mObj0).fst.currentState = JSVal.obj 0
        ∨ (constRed (JSVal.obj 1) mObj0.currentState).result
            = Except.ok ((handle envHooks (constRed (JSVal.obj 1)) mObj0).fst.currentState))
    ∧ invoke envHooks "go" [] mObj0
        = handle envHooks (invokeReducer envHooks "go" []) mObj0 :=
  ⟨(C8_state_provenance.1 envHooks (JSVal.obj 0) _ Reachable.start).1,
    C8_state_provenance.2.1 envHooks (constRed (JSVal.obj 1)) mObj0,
    C8_state_provenance.2.2 envHooks "go" [] mObj0⟩

/-- C10: when the reducer returns a falsy next state different in identity
from the current one, the transition still commits: the old state's `exit`
fires if present, `currentState` is reassigned to the falsy value, no entry
hook runs (the truthiness guard skips it) and no error arises inside
`handle` itself. -/
theorem C10_falsy_commit (env : Env) (r : Reducer) (m : Machine) (next : JSVal)
    (hres : (r m.currentState).result = Except.ok next)
    (hne : next ≠ m.currentState)
    (hfalsy : truthy next = false)
    (hexok : (runExitHook env m.currentState).snd = none) :
    handle env r m
      = ({ currentState := next,
           trace := m.trace ++ (r m.currentState).calls.map Event.called
             ++ (runExitHook env m.currentState).fst ++ [Event.assigned next] },
         none)
    ∧ (∀ a, m.currentState = JSVal.obj a → (env a).exit = some HookBehavior.ok →
        (runExitHook env m.currentState).fst = [Event.exitCalled a]) := by
  constructor
  · rcases hr : r m.currentState with ⟨calls, res⟩
    rw [hr] at hres
    simp only at hres
    subst hres
    unfold handle
    rw [hr]
    simp only [if_neg hne]
    rcases hEx : runExitHook env m.currentState with ⟨evs, err⟩
    rw [hEx] at hexok
    simp only at hexok
    subst hexok
    rw [runEntryHook_falsy env next hfalsy]
    simp
  · intro a hcur hex
    rw [hcur]
    unfold runExitHook
    simp [hex]

/-- C10 witness: a reducer returning `null` from `obj 0` (which has an
`exit` hook) commits: `exit` fires, `currentState` becomes `null`, no entry
event, no error. -/
theorem C10_falsy_commit_witness :
    handle envHooks (constRed JSVal.null) mObj0
      = ({ currentState := JSVal.null,
           trace := [Event.exitCalled 0, Event.assigned JSVal.null] }, none)
    ∧ (runExitHook envHooks mObj0.currentState).fst = [Event.exitCalled 0] := by
  have h := C10_falsy_commit envHooks (constRed JSVal.null) mObj0 JSVal.null
    rfl (by decide) rfl rfl
  exact ⟨by simpa using h.1, h.2 0 rfl rfl⟩
